import Mathlib

/-!
# personalizationUtil.js — a shallow embedding

Source: `survey-skill-template/lambda/custom/personalizationUtil.js`.

The module is JavaScript, so the embedding starts from a small model of the
JavaScript values the module touches, of property reads on them, and of the
two external collaborators reached through the handler input (the
service-client factory and the profile client). Effects that the module
performs are recorded in a `World`: how often each collaborator was called
and what was written to the console.

Modelling choices, each local to one definition below:

* `JSVal` holds data values only (no callable values, no accessors); numbers
  are integers, which is exact for the only numeric operation of the module,
  the comparison `=== 403`;
* a promise is identified with the way it settles (`Settled`);
* a collaborator is an oracle giving the outcome of its `k`-th call, so the
  model does not presuppose how often the module calls it;
* `console.log` never throws.
-/

namespace PersonalizationUtil

/-! ## JavaScript values -/

/-- JavaScript data values. An `object` lists its own data properties in
insertion order. -/
inductive JSVal where
  | undefined
  | null
  | bool (b : Bool)
  | number (n : Int)
  | string (s : String)
  | symbol (description : String)
  | object (props : List (String × JSVal))

/-- The own properties of an object under construction. -/
abbrev Props := List (String × JSVal)

/-- A `TypeError` raised by the language itself: an error object whose only
own data property is `message`. -/
def typeError (msg : String) : JSVal :=
  .object [("message", .string msg)]

/-- Truthiness, as tested by `if (v)`. -/
def truthy : JSVal → Bool
  | .undefined => false
  | .null => false
  | .bool b => b
  | .number n => n != 0
  | .string s => s != ""
  | .symbol _ => true
  | .object _ => true

/-- Whether `k` is an own property. -/
def hasOwn (ps : Props) (k : String) : Bool :=
  ps.any (fun p => p.1 == k)

/-- Property read `v.k`, for a key `k` that no built-in prototype defines
(the module reads `personId`, `statusCode` and `statusMessage`). Reading a
property of `undefined` or `null` throws a `TypeError`; a missing property
reads as `undefined`. -/
def getProp (v : JSVal) (k : String) : Except JSVal JSVal :=
  match v with
  | .undefined => .error (typeError "Cannot read properties of undefined")
  | .null => .error (typeError "Cannot read properties of null")
  | .object ps => .ok ((ps.lookup k).getD .undefined)
  | _ => .ok .undefined

/-- Property write `o.k = v` on the own properties of an object. -/
def assign (ps : Props) (k : String) (v : JSVal) : Props :=
  if hasOwn ps k then ps.map (fun p => if p.1 == k then (k, v) else p)
  else ps ++ [(k, v)]

/-- Strict equality with a number literal, `v === n`. -/
def strictEqNumber (v : JSVal) (n : Int) : Bool :=
  match v with
  | .number m => decide (m = n)
  | _ => false

/-- Strict inequality with null, `v !== null`. -/
def strictNeNull : JSVal → Bool
  | .null => false
  | _ => true

/-- Whether `'literal' + v` throws: a symbol cannot be converted to a string,
and neither can an object whose own `toString` shadows the inherited one
(no data value is callable). Everything else converts. -/
def concatThrows : JSVal → Bool
  | .symbol _ => true
  | .object ps => hasOwn ps "toString"
  | _ => false

/-! ## The world outside the module -/

/-- One `console.log` call. `concat lit v` is the single string argument
`lit + v`, kept unrendered. -/
inductive LogEntry where
  | values (args : List JSVal)
  | concat (lit : String) (v : JSVal)

/-- What the module has done to the outside so far. -/
structure World where
  factoryCalls : Nat
  clientCalls : Nat
  console : List LogEntry

/-- Append one entry to the console (`console.log`). -/
def World.log (w : World) (e : LogEntry) : World :=
  { w with console := w.console ++ [e] }

/-- Outcome of `await client.getPersonsProfileGivenName()`: the awaited
promise fulfils with a value, or the call throws or the promise rejects. -/
inductive CallOutcome where
  | fulfilled (v : JSVal)
  | rejected (e : JSVal)

/-- What `getUpsServiceClient()` returns: a profile client, whose
`getPersonsProfileGivenName` oracle gives the outcome of its `k`-th call, or
some data value that is no client. -/
inductive ClientVal where
  | client (getPersonsProfileGivenName : Nat → CallOutcome)
  | other (v : JSVal)

/-- The service-client factory: the outcome of the `k`-th call of
`getUpsServiceClient()`, a returned value or a thrown one. -/
structure ServiceClientFactory where
  getUpsServiceClient : Nat → Except JSVal ClientVal

/-- The handler input, as far as the module reads it:
`requestEnvelope.context.System.person` (`undefined` when absent) and the
optional `serviceClientFactory`. -/
structure HandlerInput where
  person : JSVal
  serviceClientFactory : Option ServiceClientFactory

/-- How a promise settles. -/
inductive Settled where
  | resolved (v : JSVal)
  | rejected (e : JSVal)

/-- The functions of the module that are passed around as values. -/
inductive FunctionRef where
  | handleFallback

/-- A value returned by a function of the module: a data value, the promise
of an `async` function, or a reference to a function. -/
inductive Returned where
  | value (v : JSVal)
  | promise (s : Settled)
  | function (f : FunctionRef)

/-! ## The module -/

/-- The constant `EMPTY`, declared as `const EMPTY = "";`. -/
def EMPTY : JSVal := .string ""

/-- The status code `PERSON_PERMISSION_DENIED`, the string of that name. -/
def PERSON_PERMISSION_DENIED : JSVal := .string "PERSON_PERMISSION_DENIED"

/-- The status code `UNKNOWN_ERROR`, the string of that name. -/
def UNKNOWN_ERROR : JSVal := .string "UNKNOWN_ERROR"

/-- The accessor `getPerson`: reads
`handlerInput.requestEnvelope.context.System.person`. -/
def getPerson (handlerInput : HandlerInput) : JSVal :=
  handlerInput.person

/-- The accessor `getPersonId`: `getPerson(handlerInput).personId`. -/
def getPersonId (handlerInput : HandlerInput) : Except JSVal JSVal :=
  getProp (getPerson handlerInput) "personId"

/-- The body of `handleFallback`: `return EMPTY`. -/
def handleFallback : JSVal := EMPTY

/-- Calling a function value with no arguments. -/
def FunctionRef.invoke : FunctionRef → JSVal
  | .handleFallback => PersonalizationUtil.handleFallback

/-- The constructor `getErrorObj(code, errorMessage)`: a fresh object on which
`statusCode` and then `statusMessage` are set. -/
def getErrorObj (code errorMessage : JSVal) : JSVal :=
  let error : Props := []
  let error := assign error "statusCode" code
  let error := assign error "statusMessage" errorMessage
  .object error

/-- The `try` block of `getPersonalizedPromptFromId`. Returns whether the
block completed or threw, together with `personResponse` and the world as
they are at that point. -/
def tryBlock (handlerInput : HandlerInput) (client : ClientVal)
    (personResponse : Props) (w : World) : Except JSVal Unit × Props × World :=
  match getPersonId handlerInput with
  | .error e => (.error e, personResponse, w)
  | .ok personId =>
    let w := w.log (.values [.string "Received personId: ", personId])
    match client with
    | .other _ =>
      (.error (typeError "client.getPersonsProfileGivenName is not a function"),
        personResponse, w)
    | .client getPersonsProfileGivenName =>
      let outcome := getPersonsProfileGivenName w.clientCalls
      let w := { w with clientCalls := w.clientCalls + 1 }
      match outcome with
      | .rejected e => (.error e, personResponse, w)
      | .fulfilled givenName =>
        if concatThrows givenName then
          (.error (typeError "Cannot convert value to a string"), personResponse, w)
        else
          let w := w.log (.concat
            "Given person name successfully retrieved, now responding to user." givenName)
          if strictNeNull givenName then
            (.ok (), assign personResponse "resolvedName" givenName, w)
          else
            (.ok (), personResponse, w)

/-- The `catch (error)` block of `getPersonalizedPromptFromId`. -/
def catchBlock (error : JSVal) (personResponse : Props) (w : World) :
    Except JSVal Unit × Props × World :=
  match getProp error "statusCode" with
  | .error e => (.error e, personResponse, w)
  | .ok statusCode =>
    if strictEqNumber statusCode 403 then
      let w := w.log (.values [.string
        "getPersonalizedPromptFromId: error statusCode is 403 in getting person name, then invoke voice consent"])
      match getProp error "statusMessage" with
      | .error e => (.error e, personResponse, w)
      | .ok statusMessage =>
        (.ok (), assign personResponse "error"
          (getErrorObj PERSON_PERMISSION_DENIED statusMessage), w)
    else
      let w := w.log (.values [.string
        "Exception in processing getPersonalizedPromptFromId :  $\x7bJSON.stringify(ex)\x7d"])
      match getProp error "statusMessage" with
      | .error e => (.error e, personResponse, w)
      | .ok statusMessage =>
        (.ok (), assign personResponse "error"
          (getErrorObj UNKNOWN_ERROR statusMessage), w)

/-- The `async` function `getPersonalizedPromptFromId`: how the promise it
returns settles, and the world once it has. The factory is called before the
`try` statement is entered. -/
def getPersonalizedPromptFromId (handlerInput : HandlerInput) (w : World) :
    Settled × World :=
  match handlerInput.serviceClientFactory with
  | none =>
    (.rejected (typeError "Cannot read properties of undefined"), w)
  | some factory =>
    let made := factory.getUpsServiceClient w.factoryCalls
    let w := { w with factoryCalls := w.factoryCalls + 1 }
    match made with
    | .error e => (.rejected e, w)
    | .ok client =>
      let personResponse : Props := []
      match tryBlock handlerInput client personResponse w with
      | (.ok (), personResponse, w) => (.resolved (.object personResponse), w)
      | (.error error, personResponse, w) =>
        match catchBlock error personResponse w with
        | (.ok (), personResponse, w) => (.resolved (.object personResponse), w)
        | (.error e, _, w) => (.rejected e, w)

/-- The entry point `getPersonalizedPrompt`: the promise of
`getPersonalizedPromptFromId` when `getPerson` is truthy, the function `handleFallback` otherwise. -/
def getPersonalizedPrompt (handlerInput : HandlerInput) (w : World) :
    Returned × World :=
  if truthy (getPerson handlerInput) then
    let (s, w) := getPersonalizedPromptFromId handlerInput w
    (.promise s, w)
  else
    (.function .handleFallback, w)

/-! ## Vocabulary for the statements -/

/-- The empty object `{}`. -/
def emptyObject : JSVal := .object []

/-- Whether a value is an object with own property `k`. -/
def JSVal.carries (v : JSVal) (k : String) : Bool :=
  match v with
  | .object ps => hasOwn ps k
  | _ => false

/-- Whether a returned value is a promise. -/
def Returned.isPromise : Returned → Bool
  | .promise _ => true
  | _ => false

/-- The data value that a synchronously returned value yields: the value
itself, or, for a function of the module, what calling it gives. A promise
yields none. -/
def Returned.yielded : Returned → Option JSVal
  | .value v => some v
  | .function f => some f.invoke
  | .promise _ => none

/-- The `error.statusCode` of a result object, when it has an `error`. -/
def errorKind (result : JSVal) : Option JSVal :=
  match result with
  | .object ps =>
    match ps.lookup "error" with
    | some (.object es) => es.lookup "statusCode"
    | _ => none
  | _ => none

/-- A factory that hands out the given client on every call. -/
def factoryOf (c : ClientVal) : ServiceClientFactory :=
  { getUpsServiceClient := fun _ => .ok c }

/-- A client whose every call has the given outcome. -/
def clientOf (o : CallOutcome) : ClientVal :=
  .client (fun _ => o)

/-- A handler input with the given person and a working factory whose client
always has the given outcome. -/
def inputOf (person : JSVal) (o : CallOutcome) : HandlerInput :=
  { person := person, serviceClientFactory := some (factoryOf (clientOf o)) }

/-- The world before the module has done anything. -/
def World.init : World :=
  { factoryCalls := 0, clientCalls := 0, console := [] }

/-- A person object with the given identifier. -/
def personOf (personId : String) : JSVal :=
  .object [("personId", .string personId)]

/-- Whether a promise resolves to an object with own property `k`. -/
def Settled.carries (s : Settled) (k : String) : Bool :=
  match s with
  | .resolved v => v.carries k
  | .rejected _ => false

/-- The four shapes of a personalization result: `{}`, `{resolvedName}`, and
`{error}` with one of the two error kinds. -/
def IsPersonalizationResult (r : JSVal) : Prop :=
  r = emptyObject ∨ (∃ n, r = .object [("resolvedName", n)]) ∨
    (∃ m, r = .object [("error", .object
      [("statusCode", PERSON_PERMISSION_DENIED), ("statusMessage", m)])]) ∨
    (∃ m, r = .object [("error", .object
      [("statusCode", UNKNOWN_ERROR), ("statusMessage", m)])])

/-- Whether an invocation starting in world `w` gets as far as a profile
client: a person is attached and the factory returns a client. -/
def reachesClient (handlerInput : HandlerInput) (w : World) : Bool :=
  truthy (getPerson handlerInput) &&
    match handlerInput.serviceClientFactory with
    | none => false
    | some factory =>
      match factory.getUpsServiceClient w.factoryCalls with
      | .ok (.client _) => true
      | _ => false

/-! ## Basic facts about the value model -/

theorem getProp_of_truthy (v : JSVal) (k : String) (h : truthy v = true) :
    ∃ x, getProp v k = .ok x := by
  cases v <;> simp [truthy, getProp] at h ⊢

theorem getProp_ok_iff (v : JSVal) (k : String) :
    (∃ x, getProp v k = .ok x) ↔ (v ≠ .undefined ∧ v ≠ .null) := by
  cases v <;> simp [getProp]

theorem strictEqNumber_iff (v : JSVal) (n : Int) :
    strictEqNumber v n = true ↔ v = .number n := by
  cases v <;> simp [strictEqNumber]

theorem strictNeNull_iff (v : JSVal) : strictNeNull v = true ↔ v ≠ .null := by
  cases v <;> simp [strictNeNull]

theorem assign_nil (k : String) (v : JSVal) : assign [] k v = [(k, v)] := by
  simp [assign, hasOwn]

theorem getErrorObj_eq (code msg : JSVal) :
    getErrorObj code msg = .object [("statusCode", code), ("statusMessage", msg)] := by
  simp [getErrorObj, assign, hasOwn]

/-- The `catch` block, entered with a fresh `personResponse`: it throws again
exactly on `undefined` and `null`, and otherwise sets `error` alone. -/
theorem catchBlock_nil (error : JSVal) (w : World) :
    ((error = .undefined ∨ error = .null) ∧ ∃ e, (catchBlock error [] w).1 = .error e) ∨
      ((error ≠ .undefined ∧ error ≠ .null) ∧ (catchBlock error [] w).1 = .ok () ∧
        ∃ m, (catchBlock error [] w).2.1 = [("error", .object
            [("statusCode", PERSON_PERMISSION_DENIED), ("statusMessage", m)])] ∨
          (catchBlock error [] w).2.1 = [("error", .object
            [("statusCode", UNKNOWN_ERROR), ("statusMessage", m)])]) := by
  cases error with
  | undefined => left; simp [catchBlock, getProp]
  | null => left; simp [catchBlock, getProp]
  | object ps =>
    right
    by_cases h : strictEqNumber ((ps.lookup "statusCode").getD .undefined) 403 = true <;>
      simp [catchBlock, getProp, h, assign_nil, getErrorObj_eq]
  | _ => right; simp [catchBlock, getProp, strictEqNumber, assign_nil, getErrorObj_eq]

/-- The `catch` block never touches the two call counters. -/
theorem catchBlock_calls (error : JSVal) (pr : Props) (w : World) :
    (catchBlock error pr w).2.2.factoryCalls = w.factoryCalls ∧
      (catchBlock error pr w).2.2.clientCalls = w.clientCalls := by
  unfold catchBlock
  split
  · simp
  · split <;> split <;> simp [World.log]

/-- The `try` block, entered with a fresh `personResponse`: when it throws,
`personResponse` is still empty; when it completes, `personResponse` is empty
or holds `resolvedName` alone. -/
theorem tryBlock_nil (hi : HandlerInput) (client : ClientVal) (w : World) :
    (∃ e, (tryBlock hi client [] w).1 = .error e ∧ (tryBlock hi client [] w).2.1 = []) ∨
      ((tryBlock hi client [] w).1 = .ok () ∧
        ((tryBlock hi client [] w).2.1 = [] ∨
          ∃ n, (tryBlock hi client [] w).2.1 = [("resolvedName", n)])) := by
  cases hid : getPersonId hi with
  | error e => simp [tryBlock, hid]
  | ok personId =>
    cases client with
    | other v => simp [tryBlock, hid]
    | client getName =>
      cases hcall : getName w.clientCalls with
      | rejected e => simp [tryBlock, hid, World.log, hcall]
      | fulfilled givenName =>
        by_cases hc : concatThrows givenName = true
        · simp [tryBlock, hid, World.log, hcall, hc]
        · by_cases hn : strictNeNull givenName = true <;>
            simp [tryBlock, hid, World.log, hcall, hc, hn, assign_nil]

/-- Whatever `getPersonalizedPromptFromId` resolves to has one of the four
result shapes. -/
theorem getPersonalizedPromptFromId_shape (hi : HandlerInput) (w : World) (r : JSVal)
    (h : (getPersonalizedPromptFromId hi w).1 = .resolved r) :
    IsPersonalizationResult r := by
  unfold getPersonalizedPromptFromId at h
  cases hf : hi.serviceClientFactory with
  | none => simp [hf] at h
  | some factory =>
    cases hm : factory.getUpsServiceClient w.factoryCalls with
    | error e => simp [hf, hm] at h
    | ok client =>
      simp only [hf, hm] at h
      have ht := tryBlock_nil hi client
        { w with factoryCalls := w.factoryCalls + 1 }
      revert h ht
      generalize tryBlock hi client []
        { w with factoryCalls := w.factoryCalls + 1 } = t
      obtain ⟨res, pr, w1⟩ := t
      intro h ht
      cases res with
      | ok u =>
        simp at ht h
        subst h
        rcases ht with rfl | ⟨n, rfl⟩
        · exact Or.inl rfl
        · exact Or.inr (Or.inl ⟨n, rfl⟩)
      | error err =>
        simp at ht h
        subst ht
        have hc := catchBlock_nil err w1
        revert h hc
        generalize catchBlock err [] w1 = c
        obtain ⟨res2, pr2, w2⟩ := c
        intro h hc
        cases res2 with
        | error e2 => simp at h
        | ok u2 =>
          simp at hc h
          subst h
          obtain ⟨_, m, hm2 | hm2⟩ := hc
          · exact Or.inr (Or.inr (Or.inl ⟨m, by rw [hm2]⟩))
          · exact Or.inr (Or.inr (Or.inr ⟨m, by rw [hm2]⟩))

/-- The only way the `try` block throws `undefined` or `null` is that the
client call itself failed with that value: the errors raised by the language
are objects. -/
theorem tryBlock_throws_nullish (hi : HandlerInput) (client : ClientVal) (pr : Props)
    (w : World) (e : JSVal) (h : (tryBlock hi client pr w).1 = .error e)
    (hn : e = .undefined ∨ e = .null) :
    ∃ getName, client = .client getName ∧ getName w.clientCalls = .rejected e := by
  cases hid : getPersonId hi with
  | error e1 =>
    have he : e1 = e := by simpa [tryBlock, hid] using h
    subst he
    unfold getPersonId getProp at hid
    rcases hn with rfl | rfl <;> (split at hid <;> simp [typeError] at hid)
  | ok personId =>
    cases client with
    | other v =>
      have he : typeError "client.getPersonsProfileGivenName is not a function" = e := by
        simpa [tryBlock, hid] using h
      subst he
      rcases hn with hn | hn <;> simp [typeError] at hn
    | client getName =>
      refine ⟨getName, rfl, ?_⟩
      cases hcall : getName w.clientCalls with
      | rejected e1 =>
        have he : e1 = e := by simpa [tryBlock, hid, World.log, hcall] using h
        rw [he]
      | fulfilled givenName =>
        by_cases hc : concatThrows givenName = true
        · have he : typeError "Cannot convert value to a string" = e := by
            simpa [tryBlock, hid, World.log, hcall, hc] using h
          subst he
          rcases hn with hn | hn <;> simp [typeError] at hn
        · by_cases hnn : strictNeNull givenName = true <;>
            simp [tryBlock, hid, World.log, hcall, hc, hnn] at h

/-- Once the person identifier has been read, the `try` block calls the client
once if there is one and not at all otherwise, and it never calls the
factory. -/
theorem tryBlock_calls (hi : HandlerInput) (client : ClientVal) (pr : Props) (w : World)
    (personId : JSVal) (hid : getPersonId hi = .ok personId) :
    (tryBlock hi client pr w).2.2.factoryCalls = w.factoryCalls ∧
      (tryBlock hi client pr w).2.2.clientCalls =
        w.clientCalls + (match client with | .client _ => 1 | .other _ => 0) := by
  cases client with
  | other v => simp [tryBlock, hid, World.log]
  | client getName =>
    cases hcall : getName w.clientCalls with
    | rejected e => simp [tryBlock, hid, World.log, hcall]
    | fulfilled givenName =>
      by_cases hc : concatThrows givenName = true
      · simp [tryBlock, hid, World.log, hcall, hc]
      · by_cases hn : strictNeNull givenName = true <;>
          simp [tryBlock, hid, World.log, hcall, hc, hn]

/-- Once the person identifier has been read, what the `try` block does
besides logging depends on the client and on the call counter alone: not on
the handler input, and not on the console. -/
theorem tryBlock_congr (hi1 hi2 : HandlerInput) (client : ClientVal) (pr : Props)
    (w1 w2 : World) (id1 id2 : JSVal)
    (h1 : getPersonId hi1 = .ok id1) (h2 : getPersonId hi2 = .ok id2)
    (hcc : w1.clientCalls = w2.clientCalls) :
    (tryBlock hi1 client pr w1).1 = (tryBlock hi2 client pr w2).1 ∧
      (tryBlock hi1 client pr w1).2.1 = (tryBlock hi2 client pr w2).2.1 := by
  cases client with
  | other v => simp [tryBlock, h1, h2]
  | client getName =>
    cases hcall : getName w2.clientCalls with
    | rejected e => simp [tryBlock, h1, h2, World.log, hcc, hcall]
    | fulfilled givenName =>
      by_cases hc : concatThrows givenName = true
      · simp [tryBlock, h1, h2, World.log, hcc, hcall, hc]
      · by_cases hn : strictNeNull givenName = true <;>
          simp [tryBlock, h1, h2, World.log, hcc, hcall, hc, hn]

/-- What the `catch` block does besides logging does not depend on the
world. -/
theorem catchBlock_congr (error : JSVal) (pr : Props) (w1 w2 : World) :
    (catchBlock error pr w1).1 = (catchBlock error pr w2).1 ∧
      (catchBlock error pr w1).2.1 = (catchBlock error pr w2).2.1 := by
  cases hs : getProp error "statusCode" with
  | error e => simp [catchBlock, hs]
  | ok statusCode =>
    cases hm : getProp error "statusMessage" with
    | error e =>
      by_cases h : strictEqNumber statusCode 403 = true <;> simp [catchBlock, hs, hm, h]
    | ok statusMessage =>
      by_cases h : strictEqNumber statusCode 403 = true <;> simp [catchBlock, hs, hm, h]

/-- The world in which `getPersonalizedPromptFromId` ends has the call
counters with which its `try` block ended. -/
theorem getPersonalizedPromptFromId_calls (hi : HandlerInput) (w : World)
    (factory : ServiceClientFactory) (client : ClientVal)
    (hfactory : hi.serviceClientFactory = some factory)
    (hclient : factory.getUpsServiceClient w.factoryCalls = .ok client) :
    (getPersonalizedPromptFromId hi w).2.factoryCalls =
        (tryBlock hi client [] { w with factoryCalls := w.factoryCalls + 1 }).2.2.factoryCalls ∧
      (getPersonalizedPromptFromId hi w).2.clientCalls =
        (tryBlock hi client [] { w with factoryCalls := w.factoryCalls + 1 }).2.2.clientCalls := by
  unfold getPersonalizedPromptFromId
  simp only [hfactory, hclient]
  generalize tryBlock hi client [] { w with factoryCalls := w.factoryCalls + 1 } = t
  obtain ⟨res, pr, w1⟩ := t
  cases res with
  | ok u => simp
  | error err =>
    dsimp only
    have hc := catchBlock_calls err pr w1
    revert hc
    generalize catchBlock err pr w1 = c
    obtain ⟨res2, pr2, w2⟩ := c
    intro hc
    cases res2 <;> simpa using hc

/-- How `getPersonalizedPromptFromId` settles is determined by how its `try`
block ended, whatever the console holds. -/
theorem getPersonalizedPromptFromId_congr (hi1 hi2 : HandlerInput) (w1 w2 : World)
    (factory : ServiceClientFactory) (client : ClientVal)
    (hf1 : hi1.serviceClientFactory = some factory)
    (hf2 : hi2.serviceClientFactory = some factory)
    (hc1 : factory.getUpsServiceClient w1.factoryCalls = .ok client)
    (hc2 : factory.getUpsServiceClient w2.factoryCalls = .ok client)
    (ht : (tryBlock hi1 client [] { w1 with factoryCalls := w1.factoryCalls + 1 }).1 =
        (tryBlock hi2 client [] { w2 with factoryCalls := w2.factoryCalls + 1 }).1 ∧
      (tryBlock hi1 client [] { w1 with factoryCalls := w1.factoryCalls + 1 }).2.1 =
        (tryBlock hi2 client [] { w2 with factoryCalls := w2.factoryCalls + 1 }).2.1) :
    (getPersonalizedPromptFromId hi1 w1).1 = (getPersonalizedPromptFromId hi2 w2).1 := by
  unfold getPersonalizedPromptFromId
  simp only [hf1, hf2, hc1, hc2]
  revert ht
  generalize tryBlock hi1 client [] { w1 with factoryCalls := w1.factoryCalls + 1 } = t1
  generalize tryBlock hi2 client [] { w2 with factoryCalls := w2.factoryCalls + 1 } = t2
  obtain ⟨res1, pr1, wa⟩ := t1
  obtain ⟨res2, pr2, wb⟩ := t2
  rintro ⟨hres, hpr⟩
  simp only at hres hpr
  subst hres hpr
  cases res1 with
  | ok u => rfl
  | error err =>
    dsimp only
    have hc := catchBlock_congr err pr1 wa wb
    revert hc
    generalize catchBlock err pr1 wa = ca
    generalize catchBlock err pr1 wb = cb
    obtain ⟨ra, pa, wa2⟩ := ca
    obtain ⟨rb, pb, wb2⟩ := cb
    rintro ⟨hr, hp⟩
    simp only at hr hp
    subst hr hp
    cases ra <;> rfl

theorem getPersonId_of_truthy (hi : HandlerInput) (h : truthy (getPerson hi) = true) :
    ∃ personId, getPersonId hi = .ok personId :=
  getProp_of_truthy _ _ h

/-! ## The fallback path -/

/-- C1, as amended: with no person attached (any falsy `person`),
`getPersonalizedPrompt` returns at once and leaves the world untouched (the
factory is not called, the client is not called, nothing is logged); what it
returns is no promise; the fallback value it yields, the returned value itself
or what calling it gives, is `EMPTY`, the empty string, which has neither
`resolvedName` nor `error`; and the returned value is not the empty object,
neither directly nor as the value of a promise. -/
theorem getPersonalizedPrompt_no_person_no_client (hi : HandlerInput) (w : World)
    (hperson : truthy (getPerson hi) = false) :
    (getPersonalizedPrompt hi w).2 = w ∧
      (getPersonalizedPrompt hi w).1.isPromise = false ∧
      (getPersonalizedPrompt hi w).1.yielded = some EMPTY ∧
      EMPTY = .string "" ∧
      JSVal.carries EMPTY "resolvedName" = false ∧
      JSVal.carries EMPTY "error" = false ∧
      (getPersonalizedPrompt hi w).1 ≠ .value emptyObject ∧
      (getPersonalizedPrompt hi w).1 ≠ .promise (.resolved emptyObject) := by
  simp [getPersonalizedPrompt, hperson, Returned.isPromise, Returned.yielded,
    FunctionRef.invoke, handleFallback, EMPTY, JSVal.carries]

theorem getPersonalizedPrompt_no_person_no_client_witness :
    truthy (getPerson (inputOf .undefined (.fulfilled (.string "Alex")))) = false ∧
      (getPersonalizedPrompt (inputOf .undefined (.fulfilled (.string "Alex")))
          World.init).2 = World.init ∧
      (getPersonalizedPrompt (inputOf .undefined (.fulfilled (.string "Alex")))
          World.init).1.isPromise = false ∧
      (getPersonalizedPrompt (inputOf .undefined (.fulfilled (.string "Alex")))
          World.init).1.yielded = some EMPTY ∧
      EMPTY = .string "" ∧
      JSVal.carries EMPTY "resolvedName" = false ∧
      JSVal.carries EMPTY "error" = false ∧
      (getPersonalizedPrompt (inputOf .undefined (.fulfilled (.string "Alex")))
          World.init).1 ≠ .value emptyObject ∧
      (getPersonalizedPrompt (inputOf .undefined (.fulfilled (.string "Alex")))
          World.init).1 ≠ .promise (.resolved emptyObject) :=
  ⟨rfl, getPersonalizedPrompt_no_person_no_client
    (inputOf .undefined (.fulfilled (.string "Alex"))) World.init rfl⟩

/-- C1, as stated, fails: with `person` absent the returned value is not the
empty object, neither directly nor as the value of a promise. -/
theorem getPersonalizedPrompt_no_person_not_empty_object :
    (getPersonalizedPrompt { person := .undefined, serviceClientFactory := none }
        World.init).1 ≠ .value emptyObject ∧
      (getPersonalizedPrompt { person := .undefined, serviceClientFactory := none }
        World.init).1 ≠ .promise (.resolved emptyObject) := by
  simp [getPersonalizedPrompt, getPerson, truthy]

/-- C8: with no person attached, `getPersonalizedPrompt` returns the function
`handleFallback` itself, not the value obtained by calling it; calling the
returned function yields `EMPTY`, the empty string. -/
theorem getPersonalizedPrompt_no_person_returns_handleFallback (hi : HandlerInput)
    (w : World) (hperson : truthy (getPerson hi) = false) :
    (getPersonalizedPrompt hi w).1 = .function .handleFallback ∧
      (getPersonalizedPrompt hi w).1 ≠ .value FunctionRef.handleFallback.invoke ∧
      FunctionRef.handleFallback.invoke = EMPTY ∧ EMPTY = .string "" := by
  simp [getPersonalizedPrompt, hperson, FunctionRef.invoke, handleFallback, EMPTY]

theorem getPersonalizedPrompt_no_person_returns_handleFallback_witness :
    truthy (getPerson { person := .undefined, serviceClientFactory := none }) = false ∧
      (getPersonalizedPrompt { person := .undefined, serviceClientFactory := none }
          World.init).1 = .function .handleFallback ∧
      (getPersonalizedPrompt { person := .undefined, serviceClientFactory := none }
          World.init).1 ≠ .value FunctionRef.handleFallback.invoke ∧
      FunctionRef.handleFallback.invoke = EMPTY ∧ EMPTY = .string "" :=
  ⟨rfl, getPersonalizedPrompt_no_person_returns_handleFallback _ _ rfl⟩

/-! ## The resolution path -/

/-- C2: with a person attached, a factory that returns a client, and a client
call that fulfils with a non-null name `N` (any value that converts to a
string, as every string does), the promise resolves to `{resolvedName: N}`,
an object without `error`. -/
theorem getPersonalizedPrompt_resolvedName (hi : HandlerInput) (w : World)
    (factory : ServiceClientFactory) (getName : Nat → CallOutcome) (N : JSVal)
    (hperson : truthy (getPerson hi) = true)
    (hfactory : hi.serviceClientFactory = some factory)
    (hclient : factory.getUpsServiceClient w.factoryCalls = .ok (.client getName))
    (hcall : getName w.clientCalls = .fulfilled N)
    (hnull : N ≠ .null)
    (hname : concatThrows N = false) :
    (getPersonalizedPrompt hi w).1 =
        .promise (.resolved (.object [("resolvedName", N)])) ∧
      (JSVal.object [("resolvedName", N)]).carries "error" = false := by
  obtain ⟨personId, hid⟩ := getPersonId_of_truthy hi hperson
  have hne : strictNeNull N = true := (strictNeNull_iff N).2 hnull
  refine ⟨?_, by simp [JSVal.carries, hasOwn]⟩
  simp [getPersonalizedPrompt, hperson, getPersonalizedPromptFromId, hfactory, hclient,
    tryBlock, hid, World.log, hcall, hname, hne, assign_nil]

theorem getPersonalizedPrompt_resolvedName_witness :
    truthy (getPerson (inputOf (personOf "amzn1.ask.person.X")
        (.fulfilled (.string "Alex")))) = true ∧
      (JSVal.string "Alex") ≠ .null ∧ concatThrows (.string "Alex") = false ∧
      (getPersonalizedPrompt (inputOf (personOf "amzn1.ask.person.X")
          (.fulfilled (.string "Alex"))) World.init).1 =
        .promise (.resolved (.object [("resolvedName", .string "Alex")])) :=
  ⟨rfl, by simp, rfl,
    (getPersonalizedPrompt_resolvedName
      (inputOf (personOf "amzn1.ask.person.X") (.fulfilled (.string "Alex"))) World.init
      (factoryOf (clientOf (.fulfilled (.string "Alex")))) (fun _ => .fulfilled (.string "Alex"))
      (.string "Alex") rfl rfl rfl rfl (by simp) rfl).1⟩

/-- C6: with a person attached, a factory that returns a client, and a client
call that fulfils with `null`, the promise resolves to the empty object, which
has neither `resolvedName` nor `error`. -/
theorem getPersonalizedPrompt_null_name (hi : HandlerInput) (w : World)
    (factory : ServiceClientFactory) (getName : Nat → CallOutcome)
    (hperson : truthy (getPerson hi) = true)
    (hfactory : hi.serviceClientFactory = some factory)
    (hclient : factory.getUpsServiceClient w.factoryCalls = .ok (.client getName))
    (hcall : getName w.clientCalls = .fulfilled .null) :
    (getPersonalizedPrompt hi w).1 = .promise (.resolved emptyObject) ∧
      emptyObject.carries "resolvedName" = false ∧
      emptyObject.carries "error" = false := by
  obtain ⟨personId, hid⟩ := getPersonId_of_truthy hi hperson
  refine ⟨?_, by simp [emptyObject, JSVal.carries, hasOwn],
    by simp [emptyObject, JSVal.carries, hasOwn]⟩
  simp [getPersonalizedPrompt, hperson, getPersonalizedPromptFromId, hfactory, hclient,
    tryBlock, hid, World.log, hcall, concatThrows, strictNeNull, emptyObject]

theorem getPersonalizedPrompt_null_name_witness :
    truthy (getPerson (inputOf (personOf "amzn1.ask.person.X") (.fulfilled .null))) = true ∧
      (getPersonalizedPrompt (inputOf (personOf "amzn1.ask.person.X") (.fulfilled .null))
          World.init).1 = .promise (.resolved emptyObject) :=
  ⟨rfl,
    (getPersonalizedPrompt_null_name
      (inputOf (personOf "amzn1.ask.person.X") (.fulfilled .null)) World.init
      (factoryOf (clientOf (.fulfilled .null))) (fun _ => .fulfilled .null)
      rfl rfl rfl rfl).1⟩

/-- C3: with a person attached and a factory that returns a client, if the
client call fails with a failure whose `statusCode` is the number 403 and whose
`statusMessage` is `m`, the promise resolves to
`{error: {statusCode: "PERSON_PERMISSION_DENIED", statusMessage: m}}`, an
object without `resolvedName`. -/
theorem getPersonalizedPrompt_permission_denied (hi : HandlerInput) (w : World)
    (factory : ServiceClientFactory) (getName : Nat → CallOutcome) (e m : JSVal)
    (hperson : truthy (getPerson hi) = true)
    (hfactory : hi.serviceClientFactory = some factory)
    (hclient : factory.getUpsServiceClient w.factoryCalls = .ok (.client getName))
    (hcall : getName w.clientCalls = .rejected e)
    (hstatus : getProp e "statusCode" = .ok (.number 403))
    (hmessage : getProp e "statusMessage" = .ok m) :
    (getPersonalizedPrompt hi w).1 =
        .promise (.resolved (.object [("error", .object
          [("statusCode", .string "PERSON_PERMISSION_DENIED"), ("statusMessage", m)])])) ∧
      (JSVal.object [("error", .object
          [("statusCode", .string "PERSON_PERMISSION_DENIED"),
            ("statusMessage", m)])]).carries "resolvedName" = false := by
  obtain ⟨personId, hid⟩ := getPersonId_of_truthy hi hperson
  refine ⟨?_, by simp [JSVal.carries, hasOwn]⟩
  simp [getPersonalizedPrompt, hperson, getPersonalizedPromptFromId, hfactory, hclient,
    tryBlock, hid, World.log, hcall, catchBlock, hstatus, hmessage, strictEqNumber,
    assign_nil, getErrorObj_eq, PERSON_PERMISSION_DENIED]

theorem getPersonalizedPrompt_permission_denied_witness :
    truthy (getPerson (inputOf (personOf "amzn1.ask.person.X")
        (.rejected (.object [("statusCode", .number 403),
          ("statusMessage", .string "not consented")])))) = true ∧
      getProp (.object [("statusCode", .number 403),
          ("statusMessage", .string "not consented")]) "statusCode" = .ok (.number 403) ∧
      getProp (.object [("statusCode", .number 403),
          ("statusMessage", .string "not consented")]) "statusMessage" =
        .ok (.string "not consented") ∧
      (getPersonalizedPrompt (inputOf (personOf "amzn1.ask.person.X")
          (.rejected (.object [("statusCode", .number 403),
            ("statusMessage", .string "not consented")]))) World.init).1 =
        .promise (.resolved (.object [("error", .object
          [("statusCode", .string "PERSON_PERMISSION_DENIED"),
            ("statusMessage", .string "not consented")])])) :=
  ⟨rfl, rfl, rfl,
    (getPersonalizedPrompt_permission_denied
      (inputOf (personOf "amzn1.ask.person.X")
        (.rejected (.object [("statusCode", .number 403),
          ("statusMessage", .string "not consented")]))) World.init
      (factoryOf (clientOf (.rejected (.object [("statusCode", .number 403),
          ("statusMessage", .string "not consented")]))))
      (fun _ => .rejected (.object [("statusCode", .number 403),
          ("statusMessage", .string "not consented")]))
      (.object [("statusCode", .number 403), ("statusMessage", .string "not consented")])
      (.string "not consented") rfl rfl rfl rfl rfl rfl).1⟩

/-- C4: with a person attached and a factory that returns a client, if the
client call fails with a failure whose `statusCode` reads as `s` (`undefined`
when the failure carries none) and whose `statusMessage` reads as `m`, then for
every `s` other than the number 403 the promise resolves to
`{error: {statusCode: "UNKNOWN_ERROR", statusMessage: m}}`; and in every case
the promise resolves to a result whose error kind is
`"PERSON_PERMISSION_DENIED"` exactly when `s` is 403. -/
theorem getPersonalizedPrompt_unknown_error (hi : HandlerInput) (w : World)
    (factory : ServiceClientFactory) (getName : Nat → CallOutcome) (e s m : JSVal)
    (hperson : truthy (getPerson hi) = true)
    (hfactory : hi.serviceClientFactory = some factory)
    (hclient : factory.getUpsServiceClient w.factoryCalls = .ok (.client getName))
    (hcall : getName w.clientCalls = .rejected e)
    (hstatus : getProp e "statusCode" = .ok s)
    (hmessage : getProp e "statusMessage" = .ok m) :
    (s ≠ .number 403 →
        (getPersonalizedPrompt hi w).1 =
          .promise (.resolved (.object [("error", .object
            [("statusCode", .string "UNKNOWN_ERROR"), ("statusMessage", m)])]))) ∧
      ∃ r, (getPersonalizedPrompt hi w).1 = .promise (.resolved r) ∧
        (errorKind r = some (.string "PERSON_PERMISSION_DENIED") ↔ s = .number 403) := by
  obtain ⟨personId, hid⟩ := getPersonId_of_truthy hi hperson
  by_cases h403 : strictEqNumber s 403 = true
  · have hs : s = .number 403 := (strictEqNumber_iff s 403).1 h403
    refine ⟨fun hne => absurd hs hne, ?_⟩
    refine ⟨.object [("error", .object
      [("statusCode", .string "PERSON_PERMISSION_DENIED"), ("statusMessage", m)])], ?_, ?_⟩
    · simp [getPersonalizedPrompt, hperson, getPersonalizedPromptFromId, hfactory, hclient,
        tryBlock, hid, World.log, hcall, catchBlock, hstatus, hmessage, h403,
        assign_nil, getErrorObj_eq, PERSON_PERMISSION_DENIED]
    · simp [errorKind, List.lookup, hs]
  · have hs : s ≠ .number 403 := fun h => h403 ((strictEqNumber_iff s 403).2 h)
    have hres : (getPersonalizedPrompt hi w).1 =
        .promise (.resolved (.object [("error", .object
          [("statusCode", .string "UNKNOWN_ERROR"), ("statusMessage", m)])])) := by
      simp [getPersonalizedPrompt, hperson, getPersonalizedPromptFromId, hfactory, hclient,
        tryBlock, hid, World.log, hcall, catchBlock, hstatus, hmessage, h403,
        assign_nil, getErrorObj_eq, UNKNOWN_ERROR]
    refine ⟨fun _ => hres, _, hres, ?_⟩
    simp [errorKind, List.lookup, hs]

theorem getPersonalizedPrompt_unknown_error_witness :
    truthy (getPerson (inputOf (personOf "amzn1.ask.person.X")
        (.rejected (.object [("statusCode", .number 500),
          ("statusMessage", .string "server error")])))) = true ∧
      getProp (.object [("statusCode", .number 500),
          ("statusMessage", .string "server error")]) "statusCode" = .ok (.number 500) ∧
      getProp (.object [("statusCode", .number 500),
          ("statusMessage", .string "server error")]) "statusMessage" =
        .ok (.string "server error") ∧
      JSVal.number 500 ≠ .number 403 ∧
      (getPersonalizedPrompt (inputOf (personOf "amzn1.ask.person.X")
          (.rejected (.object [("statusCode", .number 500),
            ("statusMessage", .string "server error")]))) World.init).1 =
        .promise (.resolved (.object [("error", .object
          [("statusCode", .string "UNKNOWN_ERROR"),
            ("statusMessage", .string "server error")])])) :=
  ⟨rfl, rfl, rfl, by simp,
    (getPersonalizedPrompt_unknown_error
      (inputOf (personOf "amzn1.ask.person.X")
        (.rejected (.object [("statusCode", .number 500),
          ("statusMessage", .string "server error")]))) World.init
      (factoryOf (clientOf (.rejected (.object [("statusCode", .number 500),
          ("statusMessage", .string "server error")]))))
      (fun _ => .rejected (.object [("statusCode", .number 500),
          ("statusMessage", .string "server error")]))
      (.object [("statusCode", .number 500), ("statusMessage", .string "server error")])
      (.number 500) (.string "server error") rfl rfl rfl rfl rfl rfl).1 (by simp)⟩

/-- A value that does not convert to a string is no name: when the client call
fulfils with a symbol, the log line throws inside the `try` block and the
promise resolves to an unknown error without a message. This is why the name
of the preceding theorem is required to convert. -/
theorem getPersonalizedPrompt_symbol_name :
    (getPersonalizedPrompt (inputOf (personOf "amzn1.ask.person.X")
        (.fulfilled (.symbol "name"))) World.init).1 =
      .promise (.resolved (.object [("error", .object
        [("statusCode", .string "UNKNOWN_ERROR"), ("statusMessage", .undefined)])])) :=
  rfl

/-- Called without the guard of `getPersonalizedPrompt`, on an input with no
person, `getPersonalizedPromptFromId` still calls the factory; reading
`personId` throws inside the `try` block, the client is not called, and the
promise resolves to an unknown error. -/
theorem getPersonalizedPromptFromId_no_person :
    (getPersonalizedPromptFromId (inputOf .undefined (.fulfilled (.string "Alex")))
        World.init).1 =
      .resolved (.object [("error", .object
        [("statusCode", .string "UNKNOWN_ERROR"), ("statusMessage", .undefined)])]) ∧
    (getPersonalizedPromptFromId (inputOf .undefined (.fulfilled (.string "Alex")))
        World.init).2.clientCalls = 0 :=
  ⟨rfl, rfl⟩

/-! ## Rejection and the shape of results -/

/-- C5: the claim, like the docstring of `getPersonalizedPromptFromId`, has
every failure end in a result object, and the code misses it on three inputs.
With a person attached, the promise rejects when the handler input has no
service-client factory and when `getUpsServiceClient` throws, because that
call stands before the `try` statement; and it rejects when the client call
fails with `undefined`, because the `catch` block reads `error.statusCode`
unguarded. The first input is rejected through the exported
`getPersonalizedPrompt` as well. So it is not the case that the promise always
resolves. -/
theorem getPersonalizedPromptFromId_can_reject :
    (getPersonalizedPromptFromId
        { person := personOf "amzn1.ask.person.X", serviceClientFactory := none }
        World.init).1 = .rejected (typeError "Cannot read properties of undefined") ∧
      (getPersonalizedPrompt
        { person := personOf "amzn1.ask.person.X", serviceClientFactory := none }
        World.init).1 =
          .promise (.rejected (typeError "Cannot read properties of undefined")) ∧
      (getPersonalizedPromptFromId
        { person := personOf "amzn1.ask.person.X",
          serviceClientFactory :=
            some { getUpsServiceClient := fun _ => .error (.string "no api client") } }
        World.init).1 = .rejected (.string "no api client") ∧
      (getPersonalizedPromptFromId
        (inputOf (personOf "amzn1.ask.person.X") (.rejected .undefined))
        World.init).1 = .rejected (typeError "Cannot read properties of undefined") ∧
      ¬ ∀ (hi : HandlerInput) (w : World),
          ∃ r, (getPersonalizedPromptFromId hi w).1 = .resolved r := by
  refine ⟨rfl, rfl, rfl, rfl, fun h => ?_⟩
  obtain ⟨r, hr⟩ := h { person := personOf "amzn1.ask.person.X", serviceClientFactory := none }
    World.init
  simp [getPersonalizedPromptFromId] at hr

/-- The extent of the two omissions, over data values: apart from a missing
factory, a throwing `getUpsServiceClient` and a client call that fails with
`undefined` or `null`, the promise resolves, and to one of the four result
shapes. -/
theorem getPersonalizedPromptFromId_resolves (hi : HandlerInput) (w : World)
    (factory : ServiceClientFactory) (client : ClientVal)
    (hfactory : hi.serviceClientFactory = some factory)
    (hclient : factory.getUpsServiceClient w.factoryCalls = .ok client)
    (hfailure : ∀ getName e, client = .client getName →
      getName w.clientCalls = .rejected e → e ≠ .undefined ∧ e ≠ .null) :
    ∃ r, (getPersonalizedPromptFromId hi w).1 = .resolved r ∧
      IsPersonalizationResult r := by
  suffices hres : ∃ r, (getPersonalizedPromptFromId hi w).1 = .resolved r by
    obtain ⟨r, hr⟩ := hres
    exact ⟨r, hr, getPersonalizedPromptFromId_shape hi w r hr⟩
  unfold getPersonalizedPromptFromId
  simp only [hfactory, hclient]
  have ht := tryBlock_nil hi client { w with factoryCalls := w.factoryCalls + 1 }
  have hthrow := tryBlock_throws_nullish hi client []
    { w with factoryCalls := w.factoryCalls + 1 }
  revert ht hthrow
  generalize tryBlock hi client [] { w with factoryCalls := w.factoryCalls + 1 } = t
  obtain ⟨res, pr, w1⟩ := t
  intro ht hthrow
  cases res with
  | ok u => exact ⟨_, rfl⟩
  | error err =>
    simp at ht
    subst ht
    dsimp only
    have hc := catchBlock_nil err w1
    revert hc
    generalize catchBlock err [] w1 = c
    obtain ⟨res2, pr2, w2⟩ := c
    intro hc
    cases res2 with
    | ok u2 => exact ⟨_, rfl⟩
    | error e2 =>
      exfalso
      rcases hc with ⟨hnull, _⟩ | ⟨_, hok, _⟩
      · obtain ⟨getName, hcl, hrej⟩ := hthrow err rfl hnull
        have := hfailure getName err hcl hrej
        rcases hnull with h1 | h1
        · exact this.1 h1
        · exact this.2 h1
      · simp at hok

theorem getPersonalizedPromptFromId_resolves_witness :
    (∀ getName e, clientOf (.rejected (.object [("statusCode", .number 500),
          ("statusMessage", .string "server error")])) = .client getName →
        getName World.init.clientCalls = .rejected e → e ≠ .undefined ∧ e ≠ .null) ∧
      ∃ r, (getPersonalizedPromptFromId (inputOf (personOf "amzn1.ask.person.X")
          (.rejected (.object [("statusCode", .number 500),
            ("statusMessage", .string "server error")]))) World.init).1 = .resolved r ∧
        IsPersonalizationResult r :=
  have hf : ∀ getName e, clientOf (.rejected (.object [("statusCode", .number 500),
          ("statusMessage", .string "server error")])) = .client getName →
        getName World.init.clientCalls = .rejected e → e ≠ .undefined ∧ e ≠ .null := by
    intro getName e hc hr
    simp only [clientOf, ClientVal.client.injEq] at hc
    subst hc
    simp only [CallOutcome.rejected.injEq] at hr
    subst hr
    simp
  ⟨hf, getPersonalizedPromptFromId_resolves
    (inputOf (personOf "amzn1.ask.person.X")
      (.rejected (.object [("statusCode", .number 500),
        ("statusMessage", .string "server error")]))) World.init
    (factoryOf (clientOf (.rejected (.object [("statusCode", .number 500),
        ("statusMessage", .string "server error")]))))
    (clientOf (.rejected (.object [("statusCode", .number 500),
        ("statusMessage", .string "server error")]))) rfl rfl hf⟩

/-- C7: whatever the handler input and the collaborators do, the promise of
`getPersonalizedPromptFromId` never resolves to an object that has both
`resolvedName` and `error`. -/
theorem getPersonalizedPromptFromId_never_both (hi : HandlerInput) (w : World) :
    ((getPersonalizedPromptFromId hi w).1.carries "resolvedName" &&
      (getPersonalizedPromptFromId hi w).1.carries "error") = false := by
  cases hs : (getPersonalizedPromptFromId hi w).1 with
  | rejected e => simp [Settled.carries]
  | resolved r =>
    rcases getPersonalizedPromptFromId_shape hi w r hs with
      rfl | ⟨n, rfl⟩ | ⟨m, rfl⟩ | ⟨m, rfl⟩ <;>
      simp [Settled.carries, JSVal.carries, hasOwn, emptyObject]

/-! ## Calls to the profile client, and the person identifier -/

/-- C9: one invocation of `getPersonalizedPrompt` calls
`getPersonsProfileGivenName` exactly once when a person is attached and the
factory returns a client, and not at all otherwise; so at most once, whatever
the outcome of the call: a failed call is not repeated. -/
theorem getPersonalizedPrompt_client_calls (hi : HandlerInput) (w : World) :
    (getPersonalizedPrompt hi w).2.clientCalls =
        w.clientCalls + (if reachesClient hi w = true then 1 else 0) ∧
      (getPersonalizedPrompt hi w).2.clientCalls ≤ w.clientCalls + 1 := by
  suffices h : (getPersonalizedPrompt hi w).2.clientCalls =
      w.clientCalls + (if reachesClient hi w = true then 1 else 0) by
    refine ⟨h, ?_⟩
    rw [h]
    split <;> omega
  by_cases hperson : truthy (getPerson hi) = true
  · obtain ⟨personId, hid⟩ := getPersonId_of_truthy hi hperson
    cases hf : hi.serviceClientFactory with
    | none =>
      simp [getPersonalizedPrompt, hperson, getPersonalizedPromptFromId, hf, reachesClient]
    | some factory =>
      cases hm : factory.getUpsServiceClient w.factoryCalls with
      | error e =>
        simp [getPersonalizedPrompt, hperson, getPersonalizedPromptFromId, hf, hm,
          reachesClient]
      | ok client =>
        have hcalls := (getPersonalizedPromptFromId_calls hi w factory client hf hm).2
        have htry := (tryBlock_calls hi client []
          { w with factoryCalls := w.factoryCalls + 1 } personId hid).2
        cases client <;>
          simp [getPersonalizedPrompt, hperson, reachesClient, hf, hm, hcalls, htry]
  · simp [getPersonalizedPrompt, hperson, reachesClient]

/-- C10: for two handler inputs that both have a person attached, share the
service-client factory and start with the same call counters, so that the
collaborators behave alike, `getPersonalizedPromptFromId` settles alike and
makes the same calls, whatever the two persons and their `personId` are; and
with a person attached, `getPersonId` does not throw. The identifier reaches
the console only. -/
theorem getPersonalizedPromptFromId_ignores_personId (hi1 hi2 : HandlerInput)
    (w1 w2 : World)
    (h1 : truthy (getPerson hi1) = true) (h2 : truthy (getPerson hi2) = true)
    (hf : hi1.serviceClientFactory = hi2.serviceClientFactory)
    (hfc : w1.factoryCalls = w2.factoryCalls) (hcc : w1.clientCalls = w2.clientCalls) :
    (getPersonalizedPromptFromId hi1 w1).1 = (getPersonalizedPromptFromId hi2 w2).1 ∧
      (getPersonalizedPromptFromId hi1 w1).2.factoryCalls =
        (getPersonalizedPromptFromId hi2 w2).2.factoryCalls ∧
      (getPersonalizedPromptFromId hi1 w1).2.clientCalls =
        (getPersonalizedPromptFromId hi2 w2).2.clientCalls ∧
      (∃ personId, getPersonId hi1 = .ok personId) ∧
      (∃ personId, getPersonId hi2 = .ok personId) := by
  obtain ⟨id1, hid1⟩ := getPersonId_of_truthy hi1 h1
  obtain ⟨id2, hid2⟩ := getPersonId_of_truthy hi2 h2
  refine ⟨?_, ?_, ?_, ⟨id1, hid1⟩, ⟨id2, hid2⟩⟩
  all_goals
    cases hs : hi2.serviceClientFactory with
    | none =>
      rw [hs] at hf
      simp [getPersonalizedPromptFromId, hf, hs, hfc, hcc]
    | some factory =>
      rw [hs] at hf
      cases hm : factory.getUpsServiceClient w2.factoryCalls with
      | error e =>
        have hm1 : factory.getUpsServiceClient w1.factoryCalls = .error e := by
          rw [hfc]; exact hm
        simp [getPersonalizedPromptFromId, hf, hs, hm, hm1, hfc, hcc]
      | ok client =>
        have hm1 : factory.getUpsServiceClient w1.factoryCalls = .ok client := by
          rw [hfc]; exact hm
        have hc1 := getPersonalizedPromptFromId_calls hi1 w1 factory client hf hm1
        have hc2 := getPersonalizedPromptFromId_calls hi2 w2 factory client hs hm
        have ht1 := tryBlock_calls hi1 client []
          { w1 with factoryCalls := w1.factoryCalls + 1 } id1 hid1
        have ht2 := tryBlock_calls hi2 client []
          { w2 with factoryCalls := w2.factoryCalls + 1 } id2 hid2
        first
          | exact getPersonalizedPromptFromId_congr hi1 hi2 w1 w2 factory client hf hs hm1 hm
              (tryBlock_congr hi1 hi2 client [] _ _ id1 id2 hid1 hid2 hcc)
          | (rw [hc1.1, hc2.1, ht1.1, ht2.1]; simp [hfc])
          | (rw [hc1.2, hc2.2, ht1.2, ht2.2]; simp [hcc])

theorem getPersonalizedPromptFromId_ignores_personId_witness :
    truthy (getPerson (inputOf (personOf "amzn1.ask.person.X")
        (.fulfilled (.string "Alex")))) = true ∧
      truthy (getPerson (inputOf (.object []) (.fulfilled (.string "Alex")))) = true ∧
      (getPersonalizedPromptFromId (inputOf (personOf "amzn1.ask.person.X")
          (.fulfilled (.string "Alex"))) World.init).1 =
        (getPersonalizedPromptFromId (inputOf (.object [])
          (.fulfilled (.string "Alex"))) World.init).1 :=
  ⟨rfl, rfl,
    (getPersonalizedPromptFromId_ignores_personId
      (inputOf (personOf "amzn1.ask.person.X") (.fulfilled (.string "Alex")))
      (inputOf (.object []) (.fulfilled (.string "Alex")))
      World.init World.init rfl rfl rfl rfl rfl).1⟩

end PersonalizationUtil
